import Mathlib

/-!
Shallow embedding of the wordChef Spanish text-analysis toolkit
(files wordChef.py, bloque_origina_MariusDanielBaroana.py,
bloque_mejoras_MariusDanieBaroana.py) and proofs of the claims about it.

Python strings are modelled as lists of characters (Str).  Python floats
only ever carry exact decimal values in the scored paths of this program,
so they are modelled by rational numbers.  The external NLP libraries
(spaCy, NLTK, transformers, unicodedata) are opaque services per the spec:
they are modelled as function parameters producing structured data (SDoc,
tokenizer output, classifier output), while every line of the repository's
own logic is translated directly.
-/

namespace WordChef

/-- Python strings, modelled as lists of characters. -/
abbrev Str := List Char

/-- The whitespace characters stripped by Python str.strip() / matched by
str.isspace() in the ASCII range (the inputs this program manipulates). -/
def pyIsSpace (c : Char) : Bool :=
  c = ' ' || c = '\t' || c = '\n' || c = '\r' || c = '\x0b' || c = '\x0c'

/-- Python truthiness test used by the guards:
not texto or not texto.strip()  ⟺  every character is whitespace
(this includes the empty string). -/
def esBlank (s : Str) : Bool := s.all pyIsSpace

/-- Python str.strip(): drop whitespace at both ends. -/
def pyStrip (s : Str) : Str :=
  ((s.dropWhile pyIsSpace).reverse.dropWhile pyIsSpace).reverse

/-- Python str.lower() / str.casefold(), modelled on the character level. -/
def pyLower (s : Str) : Str := s.map Char.toLower

/-- A character of the regex class \w (ASCII model). -/
def pyIsWordChar (c : Char) : Bool := c.isAlpha || c.isDigit || c = '_'

/-- The character class [\w\-áéíóúñü] of bloque_mejoras. -/
def pyWordCharX (c : Char) : Bool :=
  pyIsWordChar c || (['-', 'á', 'é', 'í', 'ó', 'ú', 'ñ', 'ü'] : List Char).contains c

/-- re.fullmatch(r"[\w\-áéíóúñü]+", t): nonempty and every char in class. -/
def fullmatchWordX (t : Str) : Bool := !t.isEmpty && t.all pyWordCharX

/-- Python str.isalnum(). -/
def pyIsAlnumStr (t : Str) : Bool := !t.isEmpty && t.all (fun c => c.isAlpha || c.isDigit)

/-- Maximal runs of characters satisfying p: re.findall of [p]+. -/
def runsOf (p : Char → Bool) (s : Str) : List Str :=
  (List.splitOnP (fun c => !p c) s).filter (fun r => !r.isEmpty)

/-- Python str.split() with no argument: maximal runs of non-whitespace. -/
def pySplitWs (s : Str) : List Str := runsOf (fun c => !pyIsSpace c) s

/-- " ".join(xs). -/
def joinSpace (xs : List Str) : Str := List.intercalate [' '] xs

/-- Accumulator pass collecting elements not seen before. -/
def firstOccsAux (seen : List Str) : List Str → List Str
  | [] => []
  | a :: l => if a ∈ seen then firstOccsAux seen l else a :: firstOccsAux (a :: seen) l

/-- The distinct elements of a list in order of first occurrence
(the key order of a Python dict / collections.Counter). -/
def firstOccs (l : List Str) : List Str := firstOccsAux [] l

/-- collections.Counter(l) as an association list: each distinct element of
l, in first-occurrence order, with its number of occurrences. -/
def countsOf (l : List Str) : List (Str × Nat) :=
  (firstOccs l).map (fun w => (w, l.count w))

/-- Counter.most_common(k): the k entries with the largest counts, stably
sorted by count descending (heapq.nlargest is documented equivalent to
sorted(..., reverse=True)[:k]). -/
def mostCommon (k : Nat) (l : List Str) : List (Str × Nat) :=
  ((countsOf l).mergeSort (fun a b => decide (b.2 ≤ a.2))).take k

/-! ## Abstract spaCy data (external pipeline, opaque per the spec) -/

/-- A spaCy token: the attributes the repository reads. -/
structure SToken where
  text : Str
  lemma_ : Str
  pos_ : Str
  is_stop : Bool
  is_alpha : Bool
deriving DecidableEq

/-- A spaCy sentence span: its raw text and its tokens. -/
structure SSent where
  text : Str
  tokens : List SToken
deriving DecidableEq

/-- A spaCy entity span. -/
structure SEnt where
  text : Str
  label_ : Str
deriving DecidableEq

/-- A spaCy Doc: the pieces of the analysis the repository consumes. -/
structure SDoc where
  tokens : List SToken
  sents : List SSent
  noun_chunks : List (List SToken)
  ents : List SEnt
deriving DecidableEq

/-! ## Phrase pipeline of bloque_mejoras.extraer_palabras_clave -/

/-- One iteration of the noun-chunk loop (lines 284-293): filter out stop
and non-alphabetic tokens, join the casefolded lemmas with spaces, and
discard empty chunks and phrases shorter than 3 characters. -/
def chunkPhrase (chunk : List SToken) : Option Str :=
  let words := chunk.filter (fun t => !t.is_stop && t.is_alpha)
  if words.isEmpty then none
  else
    let phrase := joinSpace (words.map (fun t => pyLower t.lemma_))
    if phrase.length < 3 then none else some phrase

/-- The candidate phrases fed to phrase_counter, in chunk order. -/
def phrasesOf (chunks : List (List SToken)) : List Str :=
  chunks.filterMap chunkPhrase

/-- phrase.split() word count. -/
def numWords (phrase : Str) : Nat := (pySplitWs phrase).length

/-- any(word in sustantivos_top for word in phrase.split()). -/
def containsTopNoun (phrase : Str) (sustTop : List Str) : Bool :=
  (pySplitWs phrase).any (fun w => sustTop.contains w)

/-- Line 302: score = freq * (1 + 0.5 * (num_words - 1)) + 0.2 * contains_top_noun.
The subtraction is on Python ints, hence carried out in ℚ. -/
def phraseScore (freq nw : Nat) (containsTop : Bool) : ℚ :=
  (freq : ℚ) * (1 + (1 / 2) * ((nw : ℚ) - 1)) + (if containsTop then 1 / 5 else 0)

/-- Python round(x, 3).  On the values produced by phraseScore the result
is exact, so the half-to-even tie rule never fires and rounding half up is
an equivalent model. -/
def round3 (q : ℚ) : ℚ := (round (q * 1000) : ℚ) / 1000

/-- Lines 296-303: score every counted phrase. -/
def scoredPhrasesOf (chunks : List (List SToken)) (sustTop : List Str) :
    List (Str × ℚ) :=
  (countsOf (phrasesOf chunks)).map
    (fun pf => (pf.1, round3 (phraseScore pf.2 (numWords pf.1) (containsTopNoun pf.1 sustTop))))

/-- Line 305: sorted(scored_phrases, key=score, reverse=True)[:top_phrases]. -/
def frasesClaveOf (chunks : List (List SToken)) (sustTop : List Str) (k : Nat) :
    List (Str × ℚ) :=
  ((scoredPhrasesOf chunks sustTop).mergeSort (fun a b => decide (b.2 ≤ a.2))).take k

/-- Result dictionary of bloque_mejoras.extraer_palabras_clave. -/
structure KWResult where
  top_5_palabras : List (Str × Nat)
  sustantivos : List (Str × Nat)
  verbos : List (Str × Nat)
  frases_clave : List (Str × ℚ)
deriving DecidableEq

/-- Lines 249-259: the token-frequency part.  tokenize = some models NLTK
present (word_tokenize); none selects the regex fallback branch. -/
def top5Mejoras (texto_norm : Str) (tokenize : Option (Str → List Str))
    (stopwordsEs : List Str) (top_n : Nat) : List (Str × Nat) :=
  match tokenize with
  | some tok =>
      mostCommon top_n ((tok texto_norm).filter
        (fun t => fullmatchWordX t && !stopwordsEs.contains t && decide (t.length > 2)))
  | none =>
      mostCommon top_n ((runsOf pyWordCharX texto_norm).filter
        (fun t => !stopwordsEs.contains t && decide (t.length > 2)))

/-- Lines 271-272: the casefolded lemmas of tokens of a given POS whose
lemma is longer than 2 characters. -/
def lemasPos (doc : SDoc) (pos : Str) : List Str :=
  doc.tokens.filterMap
    (fun t => if t.pos_ = pos ∧ t.lemma_.length > 2 then some (pyLower t.lemma_) else none)

/-- The result dictionary built by bloque_mejoras.extraer_palabras_clave
after the emptiness guard. -/
def kwResultMejoras (texto : Str) (nlp : Option (Str → SDoc))
    (tokenize : Option (Str → List Str)) (stopwordsEs : List Str)
    (norm : Str → Str) (top_n top_phrases : Nat) : KWResult :=
  let top5 := top5Mejoras (norm texto) tokenize stopwordsEs top_n
  match nlp with
  | some f =>
      let doc := f texto
      let sust := mostCommon top_n (lemasPos doc "NOUN".toList)
      ⟨top5, sust, mostCommon top_n (lemasPos doc "VERB".toList),
       frasesClaveOf doc.noun_chunks (sust.map Prod.fst) top_phrases⟩
  | none => ⟨top5, [], [], []⟩

/-- bloque_mejoras_MariusDanieBaroana.extraer_palabras_clave (lines 241-317).
External services appear as parameters: tokenize models nltk.word_tokenize
(none = NLTK missing, which selects the regex fallback), stopwordsEs the
cached Spanish stopword set, norm the output of _normalize_text (Unicode
NFKC + casefold, delegated to the standard library), and nlp the spaCy
pipeline (none = spaCy missing).  Logging is a separate effect modelled by
the sessionLog functions below. -/
def extraerPalabrasClave (texto : Str) (nlp : Option (Str → SDoc))
    (tokenize : Option (Str → List Str)) (stopwordsEs : List Str)
    (norm : Str → Str) (top_n top_phrases : Nat) : Option KWResult :=
  if esBlank texto then none
  else some (kwResultMejoras texto nlp tokenize stopwordsEs norm top_n top_phrases)

/-- Result dictionary of wordChef.extraer_palabras_clave. -/
structure KWResultW where
  top_5_palabras : List (Str × Nat)
  sustantivos : List (Str × Nat)
  verbos : List (Str × Nat)
deriving DecidableEq

/-- wordChef.extraer_palabras_clave (lines 267-282): top-5 frequent tokens
via NLTK (isalnum, not a stopword, longer than 2 chars), plus noun and verb
surface-form counts via spaCy.  tokenize = none models NLTK missing
(top_5 = []). -/
def kwResultW (texto : Str) (nlp : Option (Str → SDoc))
    (tokenize : Option (Str → List Str)) (stopwordsEs : List Str) : KWResultW :=
  let top5 :=
    match tokenize with
    | some tok =>
        mostCommon 5 ((tok (pyLower texto)).filter
          (fun t => pyIsAlnumStr t && !stopwordsEs.contains t && decide (t.length > 2)))
    | none => []
  match nlp with
  | some f =>
      let doc := f texto
      ⟨top5,
       mostCommon 5 (doc.tokens.filterMap
         (fun t => if t.pos_ = "NOUN".toList then some t.text else none)),
       mostCommon 5 (doc.tokens.filterMap
         (fun t => if t.pos_ = "VERB".toList then some t.text else none))⟩
  | none => ⟨top5, [], []⟩

def extraerPalabrasClaveW (texto : Str) (nlp : Option (Str → SDoc))
    (tokenize : Option (Str → List Str)) (stopwordsEs : List Str) : Option KWResultW :=
  if esBlank texto then none
  else some (kwResultW texto nlp tokenize stopwordsEs)

/-! ## Normalization (wordChef.normalizador_texto, lines 167-205) -/

def correccionesComunes : List (Str × Str) :=
  [("haiga".toList, "haya".toList), ("naiden".toList, "nadie".toList),
   ("nadien".toList, "nadie".toList), ("aserca".toList, "acerca".toList),
   ("enserio".toList, "en serio".toList), ("haber".toList, "a ver".toList),
   ("iva".toList, "iba".toList)]

def sustantivosNoNeutros : List (Str × Str) :=
  [("casa".toList, "la casa".toList), ("persona".toList, "la persona".toList),
   ("gente".toList, "la gente".toList), ("niño".toList, "el niño".toList),
   ("niña".toList, "la niña".toList), ("camisa".toList, "la camisa".toList)]

/-- Loop body of corregir_palabras: prevLower is doc[i-1].text.lower()
(none at i = 0).  Corrections are applied first, then gendered nouns, then
the duplicate-of-previous skip; otherwise the token text is kept. -/
def corregirAux (prevLower : Option Str) : List SToken → List Str
  | [] => []
  | t :: rest =>
      let palabra := pyLower t.text
      let kept :=
        match correccionesComunes.lookup palabra with
        | some r => [r]
        | none =>
            match sustantivosNoNeutros.lookup palabra with
            | some r => [r]
            | none => if prevLower = some palabra then [] else [t.text]
      kept ++ corregirAux (some palabra) rest

/-- corregir_palabras(doc) on the token list of the doc. -/
def corregirPalabras (toks : List SToken) : Str := joinSpace (corregirAux none toks)

/-- The comprehension keeping palabras[i] iff i = 0 or its lowercase form
differs from that of palabras[i-1] (the previous original word). -/
def sinRepAux (prev : Str) : List Str → List Str
  | [] => []
  | w :: rest =>
      (if pyLower w = pyLower prev then [] else [w]) ++ sinRepAux w rest

/-- "sin_repeticiones": split on whitespace, drop adjacent case-insensitive
duplicates, rejoin with single spaces. -/
def sinRepeticiones (texto : Str) : Str :=
  joinSpace (match pySplitWs texto with
             | [] => []
             | w :: rest => w :: sinRepAux w rest)

/-- Result dictionary of normalizador_texto. -/
structure NormResult where
  original : Str
  lematizado : Str
  sin_repeticiones : Str
  corregido : Str
deriving DecidableEq

def spacyRequerido : Str := "(spaCy requerido)".toList

/-- wordChef.normalizador_texto (lines 193-205). -/
def normalizadorTexto (texto : Str) (nlp : Option (Str → SDoc)) : Option NormResult :=
  if esBlank texto then none
  else
    match nlp with
    | none => some ⟨texto, spacyRequerido, sinRepeticiones texto, spacyRequerido⟩
    | some f =>
        let doc := f texto
        some ⟨texto, joinSpace (doc.tokens.map (fun t => t.lemma_)),
              sinRepeticiones texto, corregirPalabras doc.tokens⟩

/-! ## Summarization (wordChef.resumen_simple, lines 221-245) -/

def errTextoVacio : Str := "Error: texto vacío.".toList

/-- Fallback sentence split (no spaCy): [s.strip() for s in texto.split('.') if s.strip()]. -/
def fallbackSents (texto : Str) : List Str :=
  ((List.splitOnP (fun c => c = '.') texto).map pyStrip).filter (fun s => !s.isEmpty)

/-- Per-sentence data used by the scoring loop: (noun-or-long-token count,
length used for the penalty, text rendered in the output join).
With spaCy: nouns of the span, len(oracion.text), oracion.text.strip().
Without: regex \w+ tokens longer than 2 chars, len(oracion), oracion. -/
def sentDatas (texto : Str) (nlp : Option (Str → SDoc)) : List (Nat × Nat × Str) :=
  match nlp with
  | some f =>
      (f texto).sents.map (fun s =>
        ((s.tokens.filter (fun t => t.pos_ = "NOUN".toList)).length,
         s.text.length, pyStrip s.text))
  | none =>
      (fallbackSents texto).map (fun s =>
        (((runsOf pyIsWordChar s).filter (fun w => decide (w.length > 2))).length,
         s.length, s))

/-- Lines 229-241: puntaje = count - longitud / 200.0 + (1 if i == 0 else 0). -/
def puntaje (i : Nat) (cnt longitud : Nat) : ℚ :=
  (cnt : ℚ) - (longitud : ℚ) / 200 + (if i = 0 then 1 else 0)

/-- The score the loop assigns to sentence i of the given sentence data. -/
def scoreDe (datos : List (Nat × Nat × Str)) (i : Nat) : ℚ :=
  puntaje i (datos.getD i (0, 0, [])).1 (datos.getD i (0, 0, [])).2.1

/-- The puntuaciones list: (i, puntaje) for each sentence, built by the
single pass over enumerate(oraciones) (rendered as a map over the index
range; oraciones[i] accesses are rendered with getD, every index being in
range). -/
def puntuacionesDe (datos : List (Nat × Nat × Str)) : List (Nat × ℚ) :=
  (List.range datos.length).map (fun i => (i, scoreDe datos i))

/-- Line 243: mejores = sorted(puntuaciones, key=score, reverse=True)[:n]. -/
def mejoresDe (datos : List (Nat × Nat × Str)) (n : Nat) : List (Nat × ℚ) :=
  ((puntuacionesDe datos).mergeSort (fun a b => decide (b.2 ≤ a.2))).take n

/-- Line 244: indices = sorted([idx for idx, _ in mejores]). -/
def indicesDe (datos : List (Nat × Nat × Str)) (n : Nat) : List Nat :=
  ((mejoresDe datos n).map Prod.fst).mergeSort (fun a b => decide (a ≤ b))

/-- wordChef.resumen_simple (lines 221-245). -/
def resumenSimple (texto : Str) (n : Nat) (nlp : Option (Str → SDoc)) : Str :=
  if esBlank texto then errTextoVacio
  else
    let datos := sentDatas texto nlp
    if datos.length ≤ n then texto
    else joinSpace ((indicesDe datos n).map (fun i => (datos.getD i (0, 0, [])).2.2))

/-! ## NER (wordChef.extraer_entidades, lines 250-262) -/

/-- Lexicographic order on strings by code point (Python string <=). -/
def lexLe : Str → Str → Bool
  | [], _ => true
  | _ :: _, [] => false
  | a :: s, b :: t => if a = b then lexLe s t else decide (a < b)

/-- sorted(set(l)): the distinct elements in ascending lexicographic order. -/
def sortedSet (l : List Str) : List Str := (firstOccs l).mergeSort lexLe

/-- One category: sorted(set([ent.text for ent in doc.ents if ent.label_ == tipo])). -/
def catList (ents : List SEnt) (lab : Str) : List Str :=
  sortedSet (ents.filterMap (fun e => if e.label_ = lab then some e.text else none))

/-- Result dictionary of extraer_entidades. -/
structure EntResult where
  Personas : List Str
  Lugares : List Str
  Empresas : List Str
  Fechas : List Str
  Cantidades : List Str
deriving DecidableEq

/-- wordChef.extraer_entidades.  nlp = none models spaCy unavailable, where
the Python function prints a notice and returns the empty dict {} —
rendered here as none. -/
def extraerEntidades (texto : Str) (nlp : Option (Str → SDoc)) : Option EntResult :=
  match nlp with
  | none => none
  | some f =>
      let doc := f texto
      some ⟨catList doc.ents "PER".toList, catList doc.ents "LOC".toList,
            catList doc.ents "ORG".toList, catList doc.ents "DATE".toList,
            catList doc.ents "QUANTITY".toList⟩

/-! ## Sentiment (wordChef.sentimiento_es, lines 287-304) -/

def errTransformers : Str := "Error: transformers no instalado.".toList

def transformersMissingMsg : Str := "transformers missing".toList

/-- str(e) for the IndexError raised by clasificador(texto)[0] on an empty
result list, caught by the except branch. -/
def indexErrorMsg : Str := "list index out of range".toList

/-- wordChef.sentimiento_es.  The classifier is modelled as a function to a
list of (label, score) records; [0] of an empty list raises and lands in
the except branch. -/
def sentimientoEs (texto : Str) (clasificador : Option (Str → List (Str × ℚ))) :
    Str × ℚ × Str :=
  if esBlank texto then (errTextoVacio, 0, [])
  else
    match clasificador with
    | none => (errTransformers, 0, transformersMissingMsg)
    | some f =>
        match f texto with
        | [] => ("Error".toList, 0, indexErrorMsg)
        | r :: _ =>
            let etiqueta := r.1
            let sentimiento :=
              if etiqueta.contains '1' || etiqueta.contains '2' then "Negativo".toList
              else if etiqueta.contains '3' then "Neutral".toList
              else "Positivo".toList
            (sentimiento, r.2, etiqueta)

/-! ## Session loggers (wordChef.SessionLogger.log, lines 61-77, and
bloque_mejoras.SessionLogger.log, lines 134-146)

The log file is modelled as its character contents; opening in append mode
and writing a record yields old contents ++ record.  Timestamps and the
serialization of the result value come from outside the record-shaping
logic and are parameters. -/

def dots3 : Str := "...".toList

/-- entrada[:100] + ('...' if len(entrada) > 100 else ''). -/
def snippetWordChef (entrada : Str) : Str :=
  entrada.take 100 ++ (if 100 < entrada.length then dots3 else [])

/-- The record written by wordChef.SessionLogger.log; cuerpo is the
rendering of resultado (dict/list/str pretty-printing, lines 67-76). -/
def logRecordWordChef (tipo entrada cuerpo hora : Str) : Str :=
  ['['] ++ hora ++ "] ".toList ++ tipo ++ ['\n'] ++ List.replicate 80 '-' ++ ['\n'] ++
    "Entrada: ".toList ++ snippetWordChef entrada ++ "\n\n".toList ++ cuerpo ++
    ['\n'] ++ List.replicate 80 '=' ++ "\n\n".toList

/-- wordChef.SessionLogger.log: the file is opened with mode 'a', so the
new contents are the old contents followed by the record. -/
def sessionLogWordChef (file tipo entrada cuerpo hora : Str) : Str :=
  file ++ logRecordWordChef tipo entrada cuerpo hora

/-- bloque_mejoras: snippet = (input_snippet or '')[:120] — first 120
characters, with no ellipsis marker. -/
def snippetMejoras (entrada : Str) : Str := entrada.take 120

/-- The line written by bloque_mejoras.SessionLogger.log through the
logging formatter '%(asctime)s - %(levelname)s - %(message)s'. -/
def logLineMejoras (hora accion entrada resultadoRepr : Str) : Str :=
  hora ++ " - INFO - ".toList ++ accion ++ " | Entrada: ".toList ++
    snippetMejoras entrada ++ " | Resultado: ".toList ++ resultadoRepr

/-- bloque_mejoras.SessionLogger.log: the handler appends the formatted
line and a newline to the session file (below the rotation threshold). -/
def sessionLogMejoras (file hora accion entrada resultadoRepr : Str) : Str :=
  file ++ logLineMejoras hora accion entrada resultadoRepr ++ ['\n']

/-! ## Helper lemmas -/

theorem mem_firstOccsAux {a : Str} (l : List Str) :
    ∀ seen : List Str, a ∈ firstOccsAux seen l ↔ a ∈ l ∧ a ∉ seen := by
  induction l with
  | nil => intro seen; simp [firstOccsAux]
  | cons b l ih =>
      intro seen
      by_cases hb : b ∈ seen
      · rw [firstOccsAux, if_pos hb, ih seen]
        constructor
        · rintro ⟨h1, h2⟩
          exact ⟨List.mem_cons_of_mem b h1, h2⟩
        · rintro ⟨h1, h2⟩
          rcases List.mem_cons.mp h1 with rfl | h1
          · exact absurd hb h2
          · exact ⟨h1, h2⟩
      · rw [firstOccsAux, if_neg hb]
        by_cases hab : a = b
        · subst hab
          simp [hb]
        · simp only [List.mem_cons, ih (b :: seen), List.mem_cons]
          constructor
          · rintro (rfl | ⟨h1, h2⟩)
            · exact absurd rfl hab
            · exact ⟨Or.inr h1, fun hc => h2 (Or.inr hc)⟩
          · rintro ⟨rfl | h1, h2⟩
            · exact absurd rfl hab
            · exact Or.inr ⟨h1, fun hc => by
                rcases hc with rfl | hc
                · exact hab rfl
                · exact h2 hc⟩

theorem mem_firstOccs {a : Str} {l : List Str} : a ∈ firstOccs l ↔ a ∈ l := by
  rw [firstOccs, mem_firstOccsAux l []]
  simp

theorem nodup_firstOccsAux (l : List Str) :
    ∀ seen : List Str, (firstOccsAux seen l).Nodup := by
  induction l with
  | nil => intro seen; simp [firstOccsAux]
  | cons b l ih =>
      intro seen
      by_cases hb : b ∈ seen
      · rw [firstOccsAux, if_pos hb]
        exact ih seen
      · rw [firstOccsAux, if_neg hb]
        refine List.Nodup.cons (fun hmem => ?_) (ih (b :: seen))
        have := (mem_firstOccsAux l (b :: seen)).mp hmem
        exact this.2 (List.mem_cons_self b seen)

theorem nodup_firstOccs (l : List Str) : (firstOccs l).Nodup :=
  nodup_firstOccsAux l []

theorem length_mostCommon (k : Nat) (l : List Str) : (mostCommon k l).length ≤ k := by
  simp [mostCommon, List.length_take]

/-- Membership in countsOf: each entry pairs an element of the list with
its occurrence count. -/
theorem mem_countsOf {pf : Str × Nat} {l : List Str} (h : pf ∈ countsOf l) :
    pf.1 ∈ l ∧ pf.2 = l.count pf.1 := by
  rcases List.mem_map.mp h with ⟨w, hw, hpf⟩
  rcases hpf with rfl
  exact ⟨mem_firstOccs.mp hw, rfl⟩

/-- round(·, 3) leaves phraseScore values unchanged: 1000 · phraseScore is
an integer. -/
theorem round3_phraseScore (f nw : Nat) (c : Bool) :
    round3 (phraseScore f nw c) = phraseScore f nw c := by
  have key : phraseScore f nw c * 1000 =
      ((1000 * (f : ℤ) + 500 * (f : ℤ) * (nw : ℤ) - 500 * (f : ℤ) +
        (if c then 200 else 0) : ℤ) : ℚ) := by
    unfold phraseScore
    cases c <;> simp only [if_true, if_false, Bool.false_eq_true, reduceIte] <;>
      push_cast <;> ring
  unfold round3
  rw [key, round_intCast]
  rw [div_eq_iff (by norm_num : (1000 : ℚ) ≠ 0), ← key]

theorem lexLe_total (s t : Str) : (lexLe s t || lexLe t s) = true := by
  induction s generalizing t with
  | nil => simp [lexLe]
  | cons a s ih =>
      cases t with
      | nil => simp [lexLe]
      | cons b t =>
          by_cases hab : a = b
          · subst hab
            simpa [lexLe] using ih t
          · have hne : b ≠ a := fun h => hab h.symm
            rcases lt_or_gt_of_ne hab with h | h
            · simp [lexLe, hab, hne, h]
            · simp [lexLe, hab, hne, h]

theorem lexLe_trans (s t u : Str) (h1 : lexLe s t = true) (h2 : lexLe t u = true) :
    lexLe s u = true := by
  induction s generalizing t u with
  | nil => simp [lexLe]
  | cons a s ih =>
      cases t with
      | nil => simp [lexLe] at h1
      | cons b t =>
          cases u with
          | nil => simp [lexLe] at h2
          | cons c u =>
              by_cases hab : a = b <;> by_cases hbc : b = c
              · subst hab; subst hbc
                simp only [lexLe, if_pos rfl] at h1 h2 ⊢
                exact ih t u h1 h2
              · subst hab
                simp only [lexLe, if_pos rfl] at h1
                simp only [lexLe, if_neg hbc] at h2 ⊢
                exact h2
              · subst hbc
                simp only [lexLe, if_neg hab] at h1 ⊢
                exact h1
              · simp only [lexLe, if_neg hab] at h1
                simp only [lexLe, if_neg hbc] at h2
                have hac : a < c := lt_trans (of_decide_eq_true h1) (of_decide_eq_true h2)
                simp [lexLe, ne_of_lt hac, hac]

/-- The descending-score comparator used by the Python stable sorts. -/
theorem descLe_trans {α : Type} : ∀ a b c : α × ℚ,
    (decide (b.2 ≤ a.2)) = true → (decide (c.2 ≤ b.2)) = true →
    (decide (c.2 ≤ a.2)) = true := by
  intro a b c h1 h2
  exact decide_eq_true (le_trans (of_decide_eq_true h2) (of_decide_eq_true h1))

theorem descLe_total {α : Type} : ∀ a b : α × ℚ,
    ((decide (b.2 ≤ a.2)) || (decide (a.2 ≤ b.2))) = true := by
  intro a b
  rcases le_total b.2 a.2 with h | h <;> simp [h]

theorem natLe_trans : ∀ a b c : Nat, (decide (a ≤ b)) = true → (decide (b ≤ c)) = true →
    (decide (a ≤ c)) = true := by
  intro a b c h1 h2
  exact decide_eq_true (le_trans (of_decide_eq_true h1) (of_decide_eq_true h2))

theorem natLe_total : ∀ a b : Nat, ((decide (a ≤ b)) || (decide (b ≤ a))) = true := by
  intro a b
  rcases le_total a b with h | h <;> simp [h]

/-- A phrase accepted by the chunk loop has at least 3 characters. -/
theorem chunkPhrase_length {ch : List SToken} {p : Str} (h : chunkPhrase ch = some p) :
    3 ≤ p.length := by
  simp only [chunkPhrase] at h
  split_ifs at h with h1 h2
  have heq := Option.some.inj h
  subst heq
  omega

/-- Phrases counted by the noun-chunk pass all have at least 3 characters. -/
theorem phrasesOf_length {p : Str} {chunks : List (List SToken)}
    (h : p ∈ phrasesOf chunks) : 3 ≤ p.length := by
  rcases List.mem_filterMap.mp h with ⟨ch, _, hch⟩
  exact chunkPhrase_length hch

/-- Every pair in the ranked phrase list carries the score the formula of
line 302 assigns to its phrase, computed from the phrase's occurrence
count, word count and salient-word indicator. -/
theorem mem_frasesClaveOf {pr : Str × ℚ} {chunks : List (List SToken)}
    {sust : List Str} {k : Nat} (h : pr ∈ frasesClaveOf chunks sust k) :
    pr.1 ∈ phrasesOf chunks ∧
    pr.2 = phraseScore ((phrasesOf chunks).count pr.1) (numWords pr.1)
      (containsTopNoun pr.1 sust) := by
  have h1 : pr ∈ (scoredPhrasesOf chunks sust).mergeSort
      (fun a b => decide (b.2 ≤ a.2)) := List.take_subset _ _ h
  have h2 : pr ∈ scoredPhrasesOf chunks sust := List.mem_mergeSort.mp h1
  rcases List.mem_map.mp h2 with ⟨pf, hpf, hpr⟩
  rcases mem_countsOf hpf with ⟨hmem, hcount⟩
  subst hpr
  refine ⟨hmem, ?_⟩
  simp only
  rw [round3_phraseScore, ← hcount]

/-- The ranked phrase list is sorted by score in descending order. -/
theorem sorted_frasesClaveOf (chunks : List (List SToken)) (sust : List Str) (k : Nat) :
    List.Pairwise (fun a b : Str × ℚ => b.2 ≤ a.2) (frasesClaveOf chunks sust k) := by
  have hs := List.sorted_mergeSort descLe_trans descLe_total (scoredPhrasesOf chunks sust)
  have hp := List.Pairwise.sublist (List.take_sublist k _) hs
  exact hp.imp (fun h => of_decide_eq_true h)

/-- What one NER category of extraer_entidades is: a duplicate-free list,
sorted lexicographically, containing exactly the texts of the entities
bearing the given label. -/
def entCategoria (ents : List SEnt) (lab : Str) (out : List Str) : Prop :=
  out.Nodup ∧ List.Pairwise (fun a b => lexLe a b = true) out ∧
  ∀ x : Str, x ∈ out ↔ ∃ e ∈ ents, e.label_ = lab ∧ e.text = x

theorem catList_spec (ents : List SEnt) (lab : Str) :
    entCategoria ents lab (catList ents lab) := by
  refine ⟨?_, ?_, ?_⟩
  · exact (List.mergeSort_perm _ lexLe).nodup_iff.mpr (nodup_firstOccs _)
  · exact List.sorted_mergeSort lexLe_trans lexLe_total _
  · intro x
    simp only [catList, sortedSet, List.mem_mergeSort, mem_firstOccs, List.mem_filterMap]
    constructor
    · rintro ⟨e, he, hx⟩
      by_cases hl : e.label_ = lab
      · rw [if_pos hl] at hx
        exact ⟨e, he, hl, Option.some.inj hx⟩
      · rw [if_neg hl] at hx
        exact absurd hx (by simp)
    · rintro ⟨e, he, hl, ht⟩
      exact ⟨e, he, by rw [if_pos hl, ht]⟩

/-! ## Properties of the sentence-selection pass of resumen_simple -/

theorem mem_puntuacionesDe {p : Nat × ℚ} {datos : List (Nat × Nat × Str)} :
    p ∈ puntuacionesDe datos ↔ p.1 < datos.length ∧ p.2 = scoreDe datos p.1 := by
  simp only [puntuacionesDe, List.mem_map, List.mem_range]
  constructor
  · rintro ⟨i, hi, rfl⟩
    exact ⟨hi, rfl⟩
  · rintro ⟨hp, hs⟩
    exact ⟨p.1, hp, by rw [← hs]⟩

theorem map_fst_puntuacionesDe (datos : List (Nat × Nat × Str)) :
    (puntuacionesDe datos).map Prod.fst = List.range datos.length := by
  rw [puntuacionesDe, List.map_map]
  exact List.map_id (List.range datos.length)

theorem length_puntuacionesDe (datos : List (Nat × Nat × Str)) :
    (puntuacionesDe datos).length = datos.length := by
  simp [puntuacionesDe]

theorem length_indicesDe (datos : List (Nat × Nat × Str)) (n : Nat)
    (h : n ≤ datos.length) : (indicesDe datos n).length = n := by
  simp only [indicesDe, List.length_mergeSort, List.length_map, mejoresDe,
    List.length_take, List.length_mergeSort, length_puntuacionesDe]
  omega

theorem nodup_map_fst_mejoresDe (datos : List (Nat × Nat × Str)) (n : Nat) :
    ((mejoresDe datos n).map Prod.fst).Nodup := by
  have hsub : ((mejoresDe datos n).map Prod.fst).Sublist
      (((puntuacionesDe datos).mergeSort (fun a b => decide (b.2 ≤ a.2))).map Prod.fst) :=
    List.Sublist.map Prod.fst (List.take_sublist n _)
  have hperm : (((puntuacionesDe datos).mergeSort (fun a b => decide (b.2 ≤ a.2))).map
      Prod.fst).Perm ((puntuacionesDe datos).map Prod.fst) :=
    List.Perm.map Prod.fst (List.mergeSort_perm _ _)
  have hnd : (((puntuacionesDe datos).mergeSort (fun a b => decide (b.2 ≤ a.2))).map
      Prod.fst).Nodup := by
    rw [hperm.nodup_iff, map_fst_puntuacionesDe]
    exact List.nodup_range _
  exact List.Nodup.sublist hsub hnd

theorem nodup_indicesDe (datos : List (Nat × Nat × Str)) (n : Nat) :
    (indicesDe datos n).Nodup :=
  (List.mergeSort_perm _ _).nodup_iff.mpr (nodup_map_fst_mejoresDe datos n)

theorem sorted_lt_indicesDe (datos : List (Nat × Nat × Str)) (n : Nat) :
    List.Pairwise (fun a b => a < b) (indicesDe datos n) := by
  have hle : List.Pairwise (fun a b : Nat => a ≤ b) (indicesDe datos n) :=
    (List.sorted_mergeSort natLe_trans natLe_total _).imp (fun h => of_decide_eq_true h)
  have hne : List.Pairwise (fun a b : Nat => a ≠ b) (indicesDe datos n) :=
    nodup_indicesDe datos n
  exact (hle.and hne).imp (fun h => lt_of_le_of_ne h.1 h.2)

theorem mem_indicesDe {i : Nat} {datos : List (Nat × Nat × Str)} {n : Nat}
    (h : i ∈ indicesDe datos n) : i < datos.length := by
  have h1 : i ∈ (mejoresDe datos n).map Prod.fst := List.mem_mergeSort.mp h
  rcases List.mem_map.mp h1 with ⟨p, hp, rfl⟩
  have h2 : p ∈ (puntuacionesDe datos).mergeSort (fun a b => decide (b.2 ≤ a.2)) :=
    List.take_subset _ _ hp
  have h3 : p ∈ puntuacionesDe datos := (List.mergeSort_perm _ _).mem_iff.mp h2
  exact (mem_puntuacionesDe.mp h3).1

/-- Selected sentences score at least as high as every unselected one: the
selection keeps the n top-scoring sentences. -/
theorem indicesDe_dominates {datos : List (Nat × Nat × Str)} {n i j : Nat}
    (hi : i ∈ indicesDe datos n) (hj : j < datos.length)
    (hnj : j ∉ indicesDe datos n) : scoreDe datos j ≤ scoreDe datos i := by
  have h1 : i ∈ (mejoresDe datos n).map Prod.fst := List.mem_mergeSort.mp hi
  rcases List.mem_map.mp h1 with ⟨p, hp, rfl⟩
  have hpP : p ∈ puntuacionesDe datos :=
    (List.mergeSort_perm _ _).mem_iff.mp (List.take_subset _ _ hp)
  have hps : p.2 = scoreDe datos p.1 := (mem_puntuacionesDe.mp hpP).2
  have hqP : (j, scoreDe datos j) ∈ puntuacionesDe datos :=
    mem_puntuacionesDe.mpr ⟨hj, rfl⟩
  have hqms : (j, scoreDe datos j) ∈
      (puntuacionesDe datos).mergeSort (fun a b => decide (b.2 ≤ a.2)) :=
    (List.mergeSort_perm _ _).mem_iff.mpr hqP
  have hsplit := List.take_append_drop n
    ((puntuacionesDe datos).mergeSort (fun a b => decide (b.2 ≤ a.2)))
  have hqdrop : (j, scoreDe datos j) ∈
      ((puntuacionesDe datos).mergeSort (fun a b => decide (b.2 ≤ a.2))).drop n := by
    rcases (List.mem_append.mp (by rw [hsplit]; exact hqms)) with hqtk | hqdr
    · exact absurd (List.mem_mergeSort.mpr (List.mem_map_of_mem Prod.fst hqtk)) hnj
    · exact hqdr
  have hsorted := List.sorted_mergeSort descLe_trans descLe_total (puntuacionesDe datos)
  rw [← hsplit] at hsorted
  have hrel := (List.pairwise_append.mp hsorted).2.2 p hp (j, scoreDe datos j) hqdrop
  have := of_decide_eq_true hrel
  simpa [hps] using this

theorem length_frasesClaveOf (chunks : List (List SToken)) (sust : List Str) (k : Nat) :
    (frasesClaveOf chunks sust k).length ≤ k := by
  simp [frasesClaveOf, List.length_take]

theorem frasesClaveOf_nil {chunks : List (List SToken)} (sust : List Str) (k : Nat)
    (h : phrasesOf chunks = []) : frasesClaveOf chunks sust k = [] := by
  simp [frasesClaveOf, scoredPhrasesOf, countsOf, h, firstOccs, firstOccsAux]

theorem length_top5Mejoras (texto_norm : Str) (tokenize : Option (Str → List Str))
    (stopwordsEs : List Str) (top_n : Nat) :
    (top5Mejoras texto_norm tokenize stopwordsEs top_n).length ≤ top_n := by
  cases tokenize <;> simp only [top5Mejoras] <;> exact length_mostCommon _ _

/-! ## Example inputs used by the witnesses -/

def tokenModelos : SToken :=
  ⟨"modelos".toList, "modelo".toList, "NOUN".toList, false, true⟩

def docEjemplo : SDoc := ⟨[tokenModelos], [], [[tokenModelos]], []⟩

def kwEjemplo : KWResult :=
  kwResultMejoras "modelos".toList (some (fun _ => docEjemplo)) none [] id 5 6

def kwEjemploSolo : KWResult := kwResultMejoras "hola mundo".toList none none [] id 5 6

def kwEjemploW : KWResultW := kwResultW "hola mundo".toList none none []

def docEntUna : SDoc := ⟨[], [], [], [⟨"Ana".toList, "PER".toList⟩]⟩

def docEntDos : SDoc :=
  ⟨[], [], [], [⟨"Ana".toList, "PER".toList⟩, ⟨"Ana".toList, "PER".toList⟩]⟩

def entEjemplo : EntResult :=
  ⟨catList docEntUna.ents "PER".toList, catList docEntUna.ents "LOC".toList,
   catList docEntUna.ents "ORG".toList, catList docEntUna.ents "DATE".toList,
   catList docEntUna.ents "QUANTITY".toList⟩

def entradaLarga : Str := List.replicate 110 'a'

def textoEjResumen : Str := "hola mundo grande. casa verde bonita. sol.".toList

def blancoEjemplo : Str := [' ']

/-! ## Claims -/

/-- C1: in bloque_mejoras.extraer_palabras_clave, every entry of the
returned frases_clave list carries the score
freq * (1 + 0.5 * (num_words - 1)) + 0.2 when some word of the phrase is
among the top-frequency nouns and freq * (1 + 0.5 * (num_words - 1)) + 0
otherwise (phraseScore; freq is the phrase's occurrence count among the
noun-chunk candidates, necessarily at least 1), and frases_clave is sorted
by score in descending order. -/
theorem claim_C1_phrase_scoring (texto : Str) (f : Str → SDoc)
    (tokenize : Option (Str → List Str)) (stopwordsEs : List Str) (norm : Str → Str)
    (top_n top_phrases : Nat) (r : KWResult)
    (h : extraerPalabrasClave texto (some f) tokenize stopwordsEs norm top_n top_phrases
          = some r) :
    (∀ pr ∈ r.frases_clave,
        1 ≤ (phrasesOf (f texto).noun_chunks).count pr.1 ∧
        pr.2 = phraseScore ((phrasesOf (f texto).noun_chunks).count pr.1)
          (numWords pr.1) (containsTopNoun pr.1 (r.sustantivos.map Prod.fst))) ∧
    List.Pairwise (fun a b : Str × ℚ => b.2 ≤ a.2) r.frases_clave := by
  rw [extraerPalabrasClave] at h
  by_cases hb : esBlank texto
  · rw [if_pos hb] at h; cases h
  · rw [if_neg hb] at h
    obtain rfl : kwResultMejoras texto (some f) tokenize stopwordsEs norm top_n top_phrases
        = r := Option.some.inj h
    constructor
    · intro pr hpr
      have hpr' : pr ∈ frasesClaveOf (f texto).noun_chunks
          ((mostCommon top_n (lemasPos (f texto) "NOUN".toList)).map Prod.fst) top_phrases := by
        simpa [kwResultMejoras] using hpr
      have hm := mem_frasesClaveOf hpr'
      refine ⟨List.count_pos_iff.mpr hm.1, ?_⟩
      simpa [kwResultMejoras] using hm.2
    · simpa [kwResultMejoras] using
        sorted_frasesClaveOf (f texto).noun_chunks
          ((mostCommon top_n (lemasPos (f texto) "NOUN".toList)).map Prod.fst) top_phrases

theorem claim_C1_witness :
    (∀ pr ∈ kwEjemplo.frases_clave,
        1 ≤ (phrasesOf docEjemplo.noun_chunks).count pr.1 ∧
        pr.2 = phraseScore ((phrasesOf docEjemplo.noun_chunks).count pr.1)
          (numWords pr.1) (containsTopNoun pr.1 (kwEjemplo.sustantivos.map Prod.fst))) ∧
    List.Pairwise (fun a b : Str × ℚ => b.2 ≤ a.2) kwEjemplo.frases_clave :=
  claim_C1_phrase_scoring "modelos".toList (fun _ => docEjemplo) none [] id 5 6
    kwEjemplo rfl

/-- C2: the phrase score of line 302 is monotonically non-decreasing in the
occurrence count and in the word count, for a fixed salient-word
indicator. -/
theorem claim_C2_score_monotone (c : Bool) (f₁ f₂ w₁ w₂ : Nat)
    (hf : f₂ ≤ f₁) (hw : w₂ ≤ w₁) :
    phraseScore f₂ w₂ c ≤ phraseScore f₁ w₁ c := by
  unfold phraseScore
  have hf' : (f₂ : ℚ) ≤ f₁ := by exact_mod_cast hf
  have hw' : (w₂ : ℚ) ≤ w₁ := by exact_mod_cast hw
  have h0 : (0 : ℚ) ≤ (f₂ : ℚ) := by positivity
  have h2 : (0 : ℚ) ≤ (w₂ : ℚ) := by positivity
  have hmul : (f₂ : ℚ) * (1 + 1 / 2 * ((w₂ : ℚ) - 1)) ≤
      (f₁ : ℚ) * (1 + 1 / 2 * ((w₁ : ℚ) - 1)) := by
    apply mul_le_mul hf' (by linarith) (by linarith) (by positivity)
  exact add_le_add_right hmul _

theorem claim_C2_witness :
    (1 ≤ 2 ∧ 1 ≤ 3) ∧ phraseScore 1 1 true ≤ phraseScore 2 3 true :=
  ⟨⟨by norm_num, by norm_num⟩,
   claim_C2_score_monotone true 2 1 3 1 (by norm_num) (by norm_num)⟩

/-- C3: on empty or whitespace-only input every analysis operation yields
no result: normalizador_texto and both extraer_palabras_clave variants
return None, while resumen_simple and sentimiento_es return their fixed
no-result error markers ("Error: texto vacío."); none performs any
analysis of the input. -/
theorem claim_C3_blank_input (texto : Str) (h : esBlank texto = true) (n : Nat)
    (nlp : Option (Str → SDoc)) (tokenize : Option (Str → List Str))
    (stopwordsEs : List Str) (norm : Str → Str) (top_n top_phrases : Nat)
    (clasificador : Option (Str → List (Str × ℚ))) :
    normalizadorTexto texto nlp = none ∧
    extraerPalabrasClave texto nlp tokenize stopwordsEs norm top_n top_phrases = none ∧
    extraerPalabrasClaveW texto nlp tokenize stopwordsEs = none ∧
    resumenSimple texto n nlp = errTextoVacio ∧
    sentimientoEs texto clasificador = (errTextoVacio, 0, []) := by
  refine ⟨?_, ?_, ?_, ?_, ?_⟩ <;>
    simp [normalizadorTexto, extraerPalabrasClave, extraerPalabrasClaveW,
      resumenSimple, sentimientoEs, h]

theorem claim_C3_witness :
    esBlank blancoEjemplo = true ∧
    (normalizadorTexto blancoEjemplo none = none ∧
     extraerPalabrasClave blancoEjemplo none none [] id 5 6 = none ∧
     extraerPalabrasClaveW blancoEjemplo none none [] = none ∧
     resumenSimple blancoEjemplo 3 none = errTextoVacio ∧
     sentimientoEs blancoEjemplo none = (errTextoVacio, 0, [])) :=
  ⟨by decide, claim_C3_blank_input blancoEjemplo (by decide) 3 none none [] id 5 6 none⟩

/-- C4 counterexample: with the transformers classifier unavailable,
sentimiento_es does not return None or an empty collection — it returns
the non-empty error tuple ("Error: transformers no instalado.", 0.0,
"transformers missing"); resumen_simple likewise returns the non-empty
error string on empty input. -/
theorem claim_C4_counterexample :
    sentimientoEs "hola".toList none = (errTransformers, 0, transformersMissingMsg) ∧
    transformersMissingMsg ≠ [] ∧ errTransformers ≠ [] ∧
    resumenSimple [] 3 none = errTextoVacio ∧ errTextoVacio ≠ [] :=
  ⟨rfl, by decide, by decide, rfl, by decide⟩

/-- C4 (amended): on empty input or a missing dependency no operation
raises (all embedded operations are total functions): normalizador_texto
and both extraer_palabras_clave variants return None on blank input and
extraer_entidades returns the empty dict when spaCy is missing, while
resumen_simple and sentimiento_es return fixed non-empty error-message
values, and normalizador_texto without spaCy returns placeholder
strings. -/
theorem claim_C4_failure_modes (texto : Str) (n : Nat) (nlp : Option (Str → SDoc))
    (tokenize : Option (Str → List Str)) (stopwordsEs : List Str) (norm : Str → Str)
    (top_n top_phrases : Nat) (clasificador : Option (Str → List (Str × ℚ))) :
    (esBlank texto = true →
      normalizadorTexto texto nlp = none ∧
      extraerPalabrasClave texto nlp tokenize stopwordsEs norm top_n top_phrases = none ∧
      extraerPalabrasClaveW texto nlp tokenize stopwordsEs = none ∧
      resumenSimple texto n nlp = errTextoVacio ∧
      sentimientoEs texto clasificador = (errTextoVacio, 0, [])) ∧
    extraerEntidades texto none = none ∧
    (esBlank texto = false →
      sentimientoEs texto none = (errTransformers, 0, transformersMissingMsg)) ∧
    (esBlank texto = false →
      normalizadorTexto texto none =
        some ⟨texto, spacyRequerido, sinRepeticiones texto, spacyRequerido⟩) := by
  refine ⟨fun h => ⟨?_, ?_, ?_, ?_, ?_⟩, rfl, fun h => ?_, fun h => ?_⟩ <;>
    simp [normalizadorTexto, extraerPalabrasClave, extraerPalabrasClaveW,
      resumenSimple, sentimientoEs, h]

theorem claim_C4_witness :
    esBlank "hola".toList = false ∧
    ((esBlank "hola".toList = true →
      normalizadorTexto "hola".toList none = none ∧
      extraerPalabrasClave "hola".toList none none [] id 5 6 = none ∧
      extraerPalabrasClaveW "hola".toList none none [] = none ∧
      resumenSimple "hola".toList 3 none = errTextoVacio ∧
      sentimientoEs "hola".toList none = (errTextoVacio, 0, [])) ∧
    extraerEntidades "hola".toList none = none ∧
    (esBlank "hola".toList = false →
      sentimientoEs "hola".toList none = (errTransformers, 0, transformersMissingMsg)) ∧
    (esBlank "hola".toList = false →
      normalizadorTexto "hola".toList none =
        some ⟨"hola".toList, spacyRequerido, sinRepeticiones "hola".toList,
              spacyRequerido⟩)) :=
  ⟨by decide, claim_C4_failure_modes "hola".toList 3 none none [] id 5 6 none⟩

/-- C5: the returned top-N/top-K lists never exceed the requested size:
in bloque_mejoras the word, noun and verb lists have at most top_n entries
and frases_clave at most top_phrases; in wordChef all three lists have at
most 5 entries. -/
theorem claim_C5_size_bounds (texto₁ texto₂ : Str) (nlp₁ nlp₂ : Option (Str → SDoc))
    (tok₁ tok₂ : Option (Str → List Str)) (st₁ st₂ : List Str) (norm : Str → Str)
    (top_n top_phrases : Nat) (r : KWResult) (rW : KWResultW)
    (h₁ : extraerPalabrasClave texto₁ nlp₁ tok₁ st₁ norm top_n top_phrases = some r)
    (h₂ : extraerPalabrasClaveW texto₂ nlp₂ tok₂ st₂ = some rW) :
    r.top_5_palabras.length ≤ top_n ∧ r.sustantivos.length ≤ top_n ∧
    r.verbos.length ≤ top_n ∧ r.frases_clave.length ≤ top_phrases ∧
    rW.top_5_palabras.length ≤ 5 ∧ rW.sustantivos.length ≤ 5 ∧
    rW.verbos.length ≤ 5 := by
  rw [extraerPalabrasClave] at h₁
  rw [extraerPalabrasClaveW] at h₂
  by_cases hb₁ : esBlank texto₁
  · rw [if_pos hb₁] at h₁; cases h₁
  by_cases hb₂ : esBlank texto₂
  · rw [if_pos hb₂] at h₂; cases h₂
  rw [if_neg hb₁] at h₁
  rw [if_neg hb₂] at h₂
  obtain rfl : kwResultMejoras texto₁ nlp₁ tok₁ st₁ norm top_n top_phrases = r :=
    Option.some.inj h₁
  obtain rfl : kwResultW texto₂ nlp₂ tok₂ st₂ = rW := Option.some.inj h₂
  cases nlp₁ <;> cases nlp₂ <;> cases tok₂ <;>
    refine ⟨?_, ?_, ?_, ?_, ?_, ?_, ?_⟩ <;>
      simp [kwResultMejoras, kwResultW, length_top5Mejoras, length_mostCommon,
        length_frasesClaveOf]

theorem claim_C5_witness :
    kwEjemploSolo.top_5_palabras.length ≤ 5 ∧ kwEjemploSolo.sustantivos.length ≤ 5 ∧
    kwEjemploSolo.verbos.length ≤ 5 ∧ kwEjemploSolo.frases_clave.length ≤ 6 ∧
    kwEjemploW.top_5_palabras.length ≤ 5 ∧ kwEjemploW.sustantivos.length ≤ 5 ∧
    kwEjemploW.verbos.length ≤ 5 :=
  claim_C5_size_bounds "hola mundo".toList "hola mundo".toList none none none none
    [] [] id 5 6 kwEjemploSolo kwEjemploW rfl rfl

/-- C6: every phrase in frases_clave has at least 3 characters after
lemma-joining (shorter candidates are discarded before counting), and an
empty candidate set yields frases_clave = [] rather than an error. -/
theorem claim_C6_phrase_filter (texto : Str) (f : Str → SDoc)
    (tokenize : Option (Str → List Str)) (stopwordsEs : List Str) (norm : Str → Str)
    (top_n top_phrases : Nat) (r : KWResult)
    (h : extraerPalabrasClave texto (some f) tokenize stopwordsEs norm top_n top_phrases
          = some r) :
    (∀ pr ∈ r.frases_clave, 3 ≤ pr.1.length) ∧
    (phrasesOf (f texto).noun_chunks = [] → r.frases_clave = []) := by
  rw [extraerPalabrasClave] at h
  by_cases hb : esBlank texto
  · rw [if_pos hb] at h; cases h
  · rw [if_neg hb] at h
    obtain rfl : kwResultMejoras texto (some f) tokenize stopwordsEs norm top_n top_phrases
        = r := Option.some.inj h
    constructor
    · intro pr hpr
      have hpr' : pr ∈ frasesClaveOf (f texto).noun_chunks
          ((mostCommon top_n (lemasPos (f texto) "NOUN".toList)).map Prod.fst) top_phrases := by
        simpa [kwResultMejoras] using hpr
      exact phrasesOf_length (mem_frasesClaveOf hpr').1
    · intro hnil
      simpa [kwResultMejoras] using
        frasesClaveOf_nil ((mostCommon top_n (lemasPos (f texto) "NOUN".toList)).map Prod.fst)
          top_phrases hnil

theorem claim_C6_witness :
    (∀ pr ∈ kwEjemplo.frases_clave, 3 ≤ pr.1.length) ∧
    (phrasesOf docEjemplo.noun_chunks = [] → kwEjemplo.frases_clave = []) :=
  claim_C6_phrase_filter "modelos".toList (fun _ => docEjemplo) none [] id 5 6
    kwEjemplo rfl

/-- C7 counterexample: extraer_entidades does not return frequency counts.
Two documents whose only entity "Ana" (label PER) occurs once and twice
respectively produce identical outputs, so the occurrence frequency is not
recoverable from the result: the code returns the sorted set of entity
texts, dropping multiplicities. -/
theorem claim_C7_counterexample :
    extraerEntidades "Ana".toList (some (fun _ => docEntUna)) =
      extraerEntidades "Ana".toList (some (fun _ => docEntDos)) ∧
    (docEntUna.ents.filter (fun e => e.label_ = "PER".toList)).length = 1 ∧
    (docEntDos.ents.filter (fun e => e.label_ = "PER".toList)).length = 2 := by
  refine ⟨rfl, by decide, by decide⟩

/-- C7 (amended): for every input document, extraer_entidades returns for
each category (Personas, Lugares, Empresas, Fechas, Cantidades) the
duplicate-free lexicographically sorted list of the texts of the entities
bearing the category's label — set membership, not frequency counts. -/
theorem claim_C7_sorted_sets (texto : Str) (f : Str → SDoc) (r : EntResult)
    (h : extraerEntidades texto (some f) = some r) :
    entCategoria (f texto).ents "PER".toList r.Personas ∧
    entCategoria (f texto).ents "LOC".toList r.Lugares ∧
    entCategoria (f texto).ents "ORG".toList r.Empresas ∧
    entCategoria (f texto).ents "DATE".toList r.Fechas ∧
    entCategoria (f texto).ents "QUANTITY".toList r.Cantidades := by
  obtain rfl : (⟨catList (f texto).ents "PER".toList, catList (f texto).ents "LOC".toList,
      catList (f texto).ents "ORG".toList, catList (f texto).ents "DATE".toList,
      catList (f texto).ents "QUANTITY".toList⟩ : EntResult) = r := Option.some.inj h
  exact ⟨catList_spec _ _, catList_spec _ _, catList_spec _ _, catList_spec _ _,
    catList_spec _ _⟩

theorem claim_C7_witness :
    entCategoria docEntUna.ents "PER".toList entEjemplo.Personas ∧
    entCategoria docEntUna.ents "LOC".toList entEjemplo.Lugares ∧
    entCategoria docEntUna.ents "ORG".toList entEjemplo.Empresas ∧
    entCategoria docEntUna.ents "DATE".toList entEjemplo.Fechas ∧
    entCategoria docEntUna.ents "QUANTITY".toList entEjemplo.Cantidades :=
  claim_C7_sorted_sets "Ana".toList (fun _ => docEntUna) entEjemplo rfl

/-- C8: when the input is non-blank and has more than n sentences,
resumen_simple selects a set of n sentence indices whose scores — computed
by the single pass as puntaje i = count - length / 200 + (1 exactly when
i = 0), where count is the spaCy noun count or the fallback long-token
count (scoreDe over sentDatas) — dominate the scores of all unselected
sentences, and returns those sentences joined in their original order
(indices strictly increasing). -/
theorem claim_C8_summary_selection (texto : Str) (n : Nat) (nlp : Option (Str → SDoc))
    (h1 : esBlank texto = false) (h2 : n < (sentDatas texto nlp).length) :
    ∃ idxs : List Nat,
      idxs.length = n ∧
      List.Pairwise (fun a b => a < b) idxs ∧
      (∀ i ∈ idxs, i < (sentDatas texto nlp).length) ∧
      (∀ i ∈ idxs, ∀ j, j < (sentDatas texto nlp).length → j ∉ idxs →
        scoreDe (sentDatas texto nlp) j ≤ scoreDe (sentDatas texto nlp) i) ∧
      resumenSimple texto n nlp =
        joinSpace (idxs.map (fun i => ((sentDatas texto nlp).getD i (0, 0, [])).2.2)) := by
  refine ⟨indicesDe (sentDatas texto nlp) n,
    length_indicesDe _ n (le_of_lt h2), sorted_lt_indicesDe _ n,
    fun i hi => mem_indicesDe hi,
    fun i hi j hj hnj => indicesDe_dominates hi hj hnj, ?_⟩
  rw [resumenSimple, if_neg (by simp [h1])]
  simp only
  rw [if_neg (not_le.mpr h2)]

theorem claim_C8_witness :
    esBlank textoEjResumen = false ∧ 1 < (sentDatas textoEjResumen none).length ∧
    (∃ idxs : List Nat,
      idxs.length = 1 ∧
      List.Pairwise (fun a b => a < b) idxs ∧
      (∀ i ∈ idxs, i < (sentDatas textoEjResumen none).length) ∧
      (∀ i ∈ idxs, ∀ j, j < (sentDatas textoEjResumen none).length → j ∉ idxs →
        scoreDe (sentDatas textoEjResumen none) j ≤ scoreDe (sentDatas textoEjResumen none) i) ∧
      resumenSimple textoEjResumen 1 none =
        joinSpace (idxs.map (fun i => ((sentDatas textoEjResumen none).getD i (0, 0, [])).2.2))) :=
  ⟨by decide, by decide,
   claim_C8_summary_selection textoEjResumen 1 none (by decide) (by decide)⟩

/-- C9 counterexample: the claim asserts that the recorded input snippet is
the first 100 characters with '...' appended exactly when longer than 100,
for every SessionLogger.log; but bloque_mejoras.SessionLogger.log records
(input or '')[:120].  On a 110-character input it records the whole input,
not first-100-plus-ellipsis. -/
theorem claim_C9_counterexample :
    entradaLarga.length = 110 ∧
    snippetMejoras entradaLarga = entradaLarga ∧
    snippetMejoras entradaLarga ≠ entradaLarga.take 100 ++ dots3 := by
  refine ⟨by decide, by decide, by decide⟩

/-- C9 (amended): both SessionLogger.log implementations are append-only —
the new file contents are the old contents followed by the new record —
and the recorded snippet is the first 100 characters of the input with
'...' appended exactly when the input exceeds 100 characters in
wordChef/bloque_origina, but the first 120 characters with no ellipsis in
bloque_mejoras. -/
theorem claim_C9_append_only (file tipo entrada cuerpo hora file₂ hora₂ accion res : Str) :
    sessionLogWordChef file tipo entrada cuerpo hora =
      file ++ logRecordWordChef tipo entrada cuerpo hora ∧
    (entrada.length ≤ 100 → snippetWordChef entrada = entrada) ∧
    (100 < entrada.length →
      snippetWordChef entrada = entrada.take 100 ++ dots3) ∧
    sessionLogMejoras file₂ hora₂ accion entrada res =
      file₂ ++ logLineMejoras hora₂ accion entrada res ++ ['\n'] ∧
    snippetMejoras entrada = entrada.take 120 := by
  refine ⟨rfl, fun h => ?_, fun h => ?_, rfl, rfl⟩
  · rw [snippetWordChef, if_neg (by omega), List.take_of_length_le h, List.append_nil]
  · rw [snippetWordChef, if_pos h]

theorem claim_C9_witness :
    (sessionLogWordChef [] "Resumen".toList entradaLarga "cuerpo".toList "12:00:00".toList =
      [] ++ logRecordWordChef "Resumen".toList entradaLarga "cuerpo".toList
        "12:00:00".toList ∧
    (entradaLarga.length ≤ 100 → snippetWordChef entradaLarga = entradaLarga) ∧
    (100 < entradaLarga.length →
      snippetWordChef entradaLarga = entradaLarga.take 100 ++ dots3) ∧
    sessionLogMejoras [] "hora".toList "Acción".toList entradaLarga "res".toList =
      [] ++ logLineMejoras "hora".toList "Acción".toList entradaLarga "res".toList
        ++ ['\n'] ∧
    snippetMejoras entradaLarga = entradaLarga.take 120) ∧
    100 < entradaLarga.length :=
  ⟨claim_C9_append_only [] "Resumen".toList entradaLarga "cuerpo".toList
    "12:00:00".toList [] "hora".toList "Acción".toList "res".toList, by decide⟩

/-- C10: when the input is non-blank and its sentence count is at most n,
resumen_simple returns the input text itself, unchanged. -/
theorem claim_C10_short_input (texto : Str) (n : Nat) (nlp : Option (Str → SDoc))
    (h1 : esBlank texto = false) (h2 : (sentDatas texto nlp).length ≤ n) :
    resumenSimple texto n nlp = texto := by
  rw [resumenSimple, if_neg (by simp [h1])]
  simp only
  rw [if_pos h2]

theorem claim_C10_witness :
    esBlank "hola mundo. sol.".toList = false ∧
    (sentDatas "hola mundo. sol.".toList none).length ≤ 3 ∧
    resumenSimple "hola mundo. sol.".toList 3 none = "hola mundo. sol.".toList :=
  ⟨by decide, by decide,
   claim_C10_short_input "hola mundo. sol.".toList 3 none (by decide) (by decide)⟩

end WordChef
